import Mathlib

/-!
Shallow embedding of the HackED2026 text-controller core
(`src/text-controller-mvp/src/app/`): the direction/dwell classifier state
(`input_processor.py`), the predictive-text engine (`predictor.py`), the
captioner boundary (`captioner.py`) and the central selection state machine
(`app_state.py`).

Modelling conventions:
* Python floats (timestamps, dwell seconds) are embedded as `ℚ`.
* `time.time()` is threaded explicitly: every entry point takes `now : ℚ`,
  and a single `now` is used for one tick (the source reads the clock
  several times inside one call; the sub-millisecond skew between those
  reads is not modelled).
* `InputProcessor.update(roll, pitch)` first classifies the sample via
  `_snap_direction` (float `sqrt`/`atan2` trigonometry) and then does pure
  dwell bookkeeping on the classified direction.  The embedding takes the
  classified direction `d : Dir` as the input of a tick: `_snap_direction`
  maps every (roll, pitch) sample to some `Dir`, and every `Dir` is realised
  by some sample (e.g. (0,1) ↦ N, (1,-1) ↦ SW), so quantifying over `Dir`
  covers all (roll, pitch) inputs.
* Fallible code is embedded with an explicit error component: an update
  returns the state as mutated up to the raise point (Python leaves partial
  mutations behind when an exception propagates) together with the events of
  the tick (`TickEv`): messages passed to `tts.speak`, the diagonal action
  fired, and the exception raised, if any.
* `dict` tables (`collections.defaultdict(list)`) are embedded as
  association lists; Python dict truthiness (non-emptiness) becomes `≠ []`.
-/

namespace HackED

/-- The nine direction constants of `input_processor.py`. -/
inductive Dir
  | CENTER | N | NE | E | SE | S | SW | W | NW
  deriving DecidableEq

/-- `CARDINALS = {DIR_N, DIR_S, DIR_E, DIR_W}` (input_processor.py). -/
def CARDINALS : List Dir := [.N, .S, .E, .W]

/-- `DIAGONALS = {DIR_NE, DIR_NW, DIR_SE, DIR_SW}` (input_processor.py). -/
def DIAGONALS : List Dir := [.NE, .NW, .SE, .SW]

/-- The direction string stored by `_flash` / `flash_direction`. -/
def Dir.str : Dir → String
  | .CENTER => "CENTER"
  | .N => "N"
  | .NE => "NE"
  | .E => "E"
  | .SE => "SE"
  | .S => "S"
  | .SW => "SW"
  | .W => "W"
  | .NW => "NW"

/-- Python `str.split()` with no separator: split on whitespace runs,
dropping empty pieces. -/
def pySplit (s : String) : List String :=
  (s.split fun c => c.isWhitespace).filter (· ≠ "")

/-! ### InputProcessor (input_processor.py) -/

/-- Dwell-tracking state of `InputProcessor`.  The stored `roll`, `pitch`
and `magnitude` fields of the source are write-only for the core logic
(read only by the renderer) and are not modelled. -/
structure InputProcessor where
  direction : Dir
  current_dir : Dir
  dwell_start : ℚ
  dwell_seconds : ℚ
  deriving DecidableEq

/-- `InputProcessor.__init__` (`_dwell_start = time.time()` is the
construction time `t0`). -/
def InputProcessor.init (t0 : ℚ) : InputProcessor :=
  { direction := .CENTER, current_dir := .CENTER, dwell_start := t0
    dwell_seconds := 0 }

/-- `InputProcessor.update(roll, pitch)` after classification: `d` is
`_snap_direction(roll, pitch)` and `now` is `time.time()`. -/
def InputProcessor.update (p : InputProcessor) (d : Dir) (now : ℚ) :
    InputProcessor :=
  if d ≠ p.current_dir then
    { direction := d, current_dir := d, dwell_start := now, dwell_seconds := 0 }
  else
    { p with direction := d, dwell_seconds := now - p.dwell_start }

/-- `InputProcessor.reset_dwell()`. -/
def InputProcessor.reset_dwell (p : InputProcessor) (now : ℚ) : InputProcessor :=
  { p with dwell_start := now, dwell_seconds := 0 }

/-! ### Captioner boundary (captioner.py)

The recognizer itself (Vosk, audio threads) is an external collaborator;
the core reads `transcript`/`paused` and calls the methods below.
`Captioner.update()` is literally `pass` in the source. -/

structure Captioner where
  transcript : List String
  interim : String          -- source field `partial` (renamed, reserved word)
  paused : Bool
  deriving DecidableEq

def Captioner.init : Captioner := { transcript := [], interim := "", paused := false }

/-- `Captioner.update()` — a no-op (`pass`). -/
def Captioner.update (c : Captioner) : Captioner := c

/-- `Captioner.toggle_pause()`. -/
def Captioner.toggle_pause (c : Captioner) : Captioner :=
  { c with paused := !c.paused }

/-- `Captioner.clear()`. -/
def Captioner.clear (c : Captioner) : Captioner :=
  { c with transcript := [], interim := "" }

/-- `Captioner.get_last_word()`. -/
def Captioner.get_last_word (c : Captioner) : String :=
  match c.transcript.getLast? with
  | none => ""
  | some line => ((pySplit line).getLastD "")

/-! ### PredictiveText (predictor.py) -/

/-- Python exceptions that the embedded code can raise. -/
inductive PyErr
  | nameError_log        -- `log` is an undefined name in app_state.py
  | keyError (k : String)
  deriving DecidableEq

/-- Table state of `PredictiveText`.  The four context tables are
`defaultdict(list)` in the source, embedded as association lists (one entry
per key, candidate lists in insertion order); dict truthiness = `≠ []`. -/
structure PredictiveText where
  unigrams : List String
  bigrams : List (String × List String)
  trigrams : List ((String × String) × List String)
  quadrigrams : List ((String × String × String) × List String)
  pentagrams : List ((String × String × String × String) × List String)
  deriving DecidableEq

/-- The hardcoded fallback of `_load_unigrams` on `FileNotFoundError`. -/
def DEFAULT_UNIGRAMS : List String :=
  ["THE", "AND", "YOU", "THAT", "WAS", "FOR", "ARE", "WITH", "THIS", "HAVE"]

/-- `defaultdict(list)` append: `tbl[k].append(v)`. -/
def assocAppend {α : Type} [BEq α] (tbl : List (α × List String)) (k : α)
    (v : String) : List (α × List String) :=
  match tbl with
  | [] => [(k, [v])]
  | (k', vs) :: rest =>
    if k' == k then (k', vs ++ [v]) :: rest
    else (k', vs) :: assocAppend rest k v

/-- A predictive-data file at the `csv.DictReader` boundary: `none` means
the file is absent (`FileNotFoundError`); a present file is the list of its
data rows, each row carrying its `"ngram"` column if the CSV has one
(`row["ngram"]` raises `KeyError` when the column is missing). -/
def NgramFile : Type := Option (List (Option String))

/-- Row loop of `_load_unigrams`: `word = row["ngram"].strip().upper()`,
keep non-empty words in order. -/
def unigramRows : List (Option String) → Except PyErr (List String)
  | [] => .ok []
  | none :: _ => .error (.keyError "ngram")
  | some v :: rest => do
    let ws ← unigramRows rest
    let word := v.trim.toUpper
    return if word ≠ "" then word :: ws else ws

/-- `PredictiveText._load_unigrams`: only `FileNotFoundError` is caught
(falling back to the hardcoded list); `KeyError` from a malformed CSV
propagates. -/
def load_unigrams (file : NgramFile) : Except PyErr (List String) :=
  match file with
  | none => .ok DEFAULT_UNIGRAMS
  | some rows => unigramRows rows

/-- Row loop of `_load_bigrams`: rows whose `ngram` field splits into
exactly 2 words append `w2` to `bigrams[w1]`. -/
def bigramRows (acc : List (String × List String)) :
    List (Option String) → Except PyErr (List (String × List String))
  | [] => .ok acc
  | none :: _ => .error (.keyError "ngram")
  | some v :: rest =>
    match pySplit v.trim.toUpper with
    | [w1, w2] => bigramRows (assocAppend acc w1 w2) rest
    | _ => bigramRows acc rest

/-- `PredictiveText._load_bigrams` (only `FileNotFoundError` caught). -/
def load_bigrams (file : NgramFile) :
    Except PyErr (List (String × List String)) :=
  match file with
  | none => .ok []
  | some rows => bigramRows [] rows

/-- Row loop of `_load_trigrams`. -/
def trigramRows (acc : List ((String × String) × List String)) :
    List (Option String) → Except PyErr (List ((String × String) × List String))
  | [] => .ok acc
  | none :: _ => .error (.keyError "ngram")
  | some v :: rest =>
    match pySplit v.trim.toUpper with
    | [w1, w2, w3] => trigramRows (assocAppend acc (w1, w2) w3) rest
    | _ => trigramRows acc rest

/-- `PredictiveText._load_trigrams` (only `FileNotFoundError` caught). -/
def load_trigrams (file : NgramFile) :
    Except PyErr (List ((String × String) × List String)) :=
  match file with
  | none => .ok []
  | some rows => trigramRows [] rows

/-- Row loop of `_load_quadrigrams`. -/
def quadrigramRows (acc : List ((String × String × String) × List String)) :
    List (Option String) →
    Except PyErr (List ((String × String × String) × List String))
  | [] => .ok acc
  | none :: _ => .error (.keyError "ngram")
  | some v :: rest =>
    match pySplit v.trim.toUpper with
    | [w1, w2, w3, w4] => quadrigramRows (assocAppend acc (w1, w2, w3) w4) rest
    | _ => quadrigramRows acc rest

/-- `PredictiveText._load_quadrigrams` (only `FileNotFoundError` caught). -/
def load_quadrigrams (file : NgramFile) :
    Except PyErr (List ((String × String × String) × List String)) :=
  match file with
  | none => .ok []
  | some rows => quadrigramRows [] rows

/-- Row loop of `_load_pentagrams`. -/
def pentagramRows (acc : List ((String × String × String × String) × List String)) :
    List (Option String) →
    Except PyErr (List ((String × String × String × String) × List String))
  | [] => .ok acc
  | none :: _ => .error (.keyError "ngram")
  | some v :: rest =>
    match pySplit v.trim.toUpper with
    | [w1, w2, w3, w4, w5] =>
      pentagramRows (assocAppend acc (w1, w2, w3, w4) w5) rest
    | _ => pentagramRows acc rest

/-- `PredictiveText._load_pentagrams` (only `FileNotFoundError` caught). -/
def load_pentagrams (file : NgramFile) :
    Except PyErr (List ((String × String × String × String) × List String)) :=
  match file with
  | none => .ok []
  | some rows => pentagramRows [] rows

/-- The five data files handed to `PredictiveText.__init__`. -/
structure NgramFiles where
  unigram_file : NgramFile
  bigram_file : NgramFile
  trigram_file : NgramFile
  quadrigram_file : NgramFile
  pentagram_file : NgramFile

/-- `PredictiveText.__init__`: load the five tables in order; the first
uncaught exception aborts construction. -/
def PredictiveText.construct (files : NgramFiles) : Except PyErr PredictiveText := do
  let u ← load_unigrams files.unigram_file
  let b ← load_bigrams files.bigram_file
  let t ← load_trigrams files.trigram_file
  let q ← load_quadrigrams files.quadrigram_file
  let p ← load_pentagrams files.pentagram_file
  return { unigrams := u, bigrams := b, trigrams := t, quadrigrams := q
           pentagrams := p }

/-- `PredictiveText._filter_by_prefix` (source name `_filter_by_prefix`). -/
def filter_by_pfx (words : List String) (pfx : String) : List String :=
  if pfx = "" then words
  else words.filter (fun w => w.startsWith pfx)

/-- `PredictiveText._merge`: `seen = set(primary)` is fixed, so duplicates
inside `secondary` itself are kept. -/
def merge (primary secondary : List String) : List String :=
  primary ++ secondary.filter (fun w => !primary.contains w)

/-- `prefix = current_input.strip().upper()` of `get_suggestions`. -/
def normPfx (current_input : String) : String := current_input.trim.toUpper

/-- `prev_words = context.strip().upper().split() if context.strip() else []`. -/
def ctxWords (context : String) : List String :=
  if context.trim = "" then [] else pySplit context.trim.toUpper

/-- The pentagram lookup key `(prev_words[-4], prev_words[-3],
prev_words[-2], prev_words[-1])`. -/
def pentaKey (ws : List String) : String × String × String × String :=
  (ws.getD (ws.length - 4) "", ws.getD (ws.length - 3) "",
   ws.getD (ws.length - 2) "", ws.getD (ws.length - 1) "")

/-- The pentagram `context_words` string
`f"{prev_words[-4]} {prev_words[-3]} {prev_words[-2]} {prev_words[-1]}"`. -/
def pentaKeyStr (ws : List String) : String :=
  ws.getD (ws.length - 4) "" ++ " " ++ ws.getD (ws.length - 3) "" ++ " " ++
    ws.getD (ws.length - 2) "" ++ " " ++ ws.getD (ws.length - 1) ""

/-- Step 1's candidate list: the pentagram entry for the last four context
words, filtered by the normalized input. -/
def pentaHits (pt : PredictiveText) (current_input context : String) :
    List String :=
  filter_by_pfx ((pt.pentagrams.lookup (pentaKey (ctxWords context))).getD [])
    (normPfx current_input)

/-- The running `(candidates, level, context_words)` triple of
`get_suggestions`. -/
abbrev SuggAcc := List String × String × String

/-- Step 1 of `get_suggestions`: try pentagram context (last 4 words). -/
def try5g (pt : PredictiveText) (pfx : String) (prev_words : List String) :
    SuggAcc :=
  if 4 ≤ prev_words.length ∧ pt.pentagrams ≠ [] then
    let hits := filter_by_pfx ((pt.pentagrams.lookup (pentaKey prev_words)).getD []) pfx
    if hits ≠ [] then (hits, "5G", pentaKeyStr prev_words)
    else ([], "—", "")
  else ([], "—", "")

/-- Step 2 of `get_suggestions`: try quadrigram context (last 3 words);
on a hit the accumulated candidates are replaced, not merged. -/
def try4g (pt : PredictiveText) (pfx : String) (prev_words : List String)
    (max_results : Nat) (acc : SuggAcc) : SuggAcc :=
  if acc.1.length < max_results ∧ 3 ≤ prev_words.length ∧ pt.quadrigrams ≠ [] then
    let n := prev_words.length
    let w3 := prev_words.getD (n - 3) ""
    let w2 := prev_words.getD (n - 2) ""
    let w1 := prev_words.getD (n - 1) ""
    let hits := filter_by_pfx ((pt.quadrigrams.lookup (w3, w2, w1)).getD []) pfx
    if hits ≠ [] then (hits, "4G", w3 ++ " " ++ w2 ++ " " ++ w1)
    else acc
  else acc

/-- Step 3 of `get_suggestions`: try trigram context (last 2 words);
on a hit the accumulated candidates are replaced, not merged. -/
def try3g (pt : PredictiveText) (pfx : String) (prev_words : List String)
    (max_results : Nat) (acc : SuggAcc) : SuggAcc :=
  if acc.1.length < max_results ∧ 2 ≤ prev_words.length ∧ pt.trigrams ≠ [] then
    let n := prev_words.length
    let w2 := prev_words.getD (n - 2) ""
    let w1 := prev_words.getD (n - 1) ""
    let hits := filter_by_pfx ((pt.trigrams.lookup (w2, w1)).getD []) pfx
    if hits ≠ [] then (hits, "3G", w2 ++ " " ++ w1)
    else acc
  else acc

/-- Step 4 of `get_suggestions`: fall back to bigram context (last word);
hits are merged after the accumulated candidates, and the level becomes
"2G" only when no earlier step contributed. -/
def try2g (pt : PredictiveText) (pfx : String) (prev_words : List String)
    (max_results : Nat) (acc : SuggAcc) : SuggAcc :=
  if acc.1.length < max_results ∧ prev_words ≠ [] ∧ pt.bigrams ≠ [] then
    let w1 := prev_words.getD (prev_words.length - 1) ""
    let extra := filter_by_pfx ((pt.bigrams.lookup w1).getD []) pfx
    let c := merge acc.1 extra
    if acc.2.1 = "—" ∧ extra ≠ [] then (c, "2G", w1) else (c, acc.2.1, acc.2.2)
  else acc

/-- Step 5 of `get_suggestions`: fall back to unigram prefix matching. -/
def try1g (pt : PredictiveText) (pfx : String) (max_results : Nat)
    (acc : SuggAcc) : SuggAcc :=
  if acc.1.length < max_results then
    let extra := filter_by_pfx pt.unigrams pfx
    let c := merge acc.1 extra
    if acc.2.1 = "—" ∧ extra ≠ [] then
      (c, "1G", if pfx = "" then "—" else pfx)
    else (c, acc.2.1, acc.2.2)
  else acc

/-- Step 6 of `get_suggestions`: last resort — the top `max_results`
unigrams, with the prefix filter NOT applied. -/
def lastResort (pt : PredictiveText) (max_results : Nat) (acc : SuggAcc) :
    SuggAcc :=
  if acc.1 = [] then (pt.unigrams.take max_results, "1G", "—") else acc

/-- `PredictiveText.get_suggestions(current_input, context, max_results)`.
The six sequential blocks of the source, each mutating the
`(candidates, level, context_words)` triple, are embedded as the six step
functions above applied in order. -/
def PredictiveText.get_suggestions (pt : PredictiveText) (current_input : String)
    (context : String) (max_results : Nat) : List String × String × String :=
  let pfx := normPfx current_input
  let prev_words := ctxWords context
  let r1 := try5g pt pfx prev_words
  let r2 := try4g pt pfx prev_words max_results r1
  let r3 := try3g pt pfx prev_words max_results r2
  let r4 := try2g pt pfx prev_words max_results r3
  let r5 := try1g pt pfx max_results r4
  let r6 := lastResort pt max_results r5
  (r6.1.take max_results, r6.2.1, r6.2.2)

/-! ### AppState (app_state.py) -/

/-- Modelled from the spec: `font.ALPHABET` (the module `font` imported by
app_state.py is absent from the repository).  Per spec §4.2 the alphabet
ring contains the letters plus the control glyphs `_ < [ ] .`, and per the
§8 scenario the letters are in alphabetical order ('H' is followed by 'I'). -/
def ALPHABET : List Char :=
  "ABCDEFGHIJKLMNOPQRSTUVWXYZ_<[].".toList

inductive Mode
  | WRITE | CAPTION
  deriving DecidableEq

/-- `MODE_WRITE = "WRITE"`, `MODE_CAPTION = "CAPTION"`. -/
def DWELL_CENTER_SEC : ℚ := 3
def DWELL_DIAGONAL_SEC : ℚ := 2
def SCROLL_COOLDOWN_SEC : ℚ := 1 / 2
def CENTER_COOLDOWN_SEC : ℚ := 1

/-- State of `AppState`.  `prefix` is renamed `pfx` (reserved word) and the
leading underscores of private fields are dropped.  `_diagonal_fired` holds
Python `False` or a direction string; it is embedded as `Option Dir`
(`none` = `False`), and the source comparison `d != self._diagonal_fired`
becomes `some d ≠ diagonal_fired` (a string never equals `False`). -/
structure AppState where
  mode : Mode
  inp : InputProcessor              -- source field `input`
  predictor : PredictiveText
  captioner : Captioner
  sentence : String
  pfx : String                      -- source field `prefix`
  cursor_index : Nat
  sugg_index : Nat
  suggestions : List String
  ngram_level : String
  ngram_context : String
  transcript_scroll : Nat
  last_scroll_time : ℚ
  diagonal_fired : Option Dir
  flash_direction : Option String
  flash_end : ℚ
  center_cooldown_until : ℚ
  was_off_center : Bool

/-- `AppState.__init__` given an already-constructed predictor (the data
files are external) and the construction time `t0`. -/
def AppState.init (pt : PredictiveText) (t0 : ℚ) : AppState :=
  { mode := .CAPTION
    inp := InputProcessor.init t0
    predictor := pt
    captioner := Captioner.init
    sentence := ""
    pfx := ""
    cursor_index := 0
    sugg_index := 0
    suggestions := []
    ngram_level := "—"
    ngram_context := ""
    transcript_scroll := 0
    last_scroll_time := 0
    diagonal_fired := none
    flash_direction := none
    flash_end := 0
    center_cooldown_until := 0
    was_off_center := false }

/-- Observable events of one tick: the messages passed to `tts.speak`, the
diagonal action fired (if any), and the exception raised (if any). -/
structure TickEv where
  spoke : List String
  fired : Option Dir
  err : Option PyErr
  deriving DecidableEq

/-- A tick with no speak call, no diagonal fire and no exception. -/
def TickEv.quiet : TickEv := { spoke := [], fired := none, err := none }

/-- `AppState.dwell_percent` (property; `now` is its `time.time()` read). -/
def AppState.dwell_percent (s : AppState) (now : ℚ) : ℚ :=
  let d := s.inp.direction
  if d = .CENTER then
    if s.mode = .CAPTION then 0
    else if now < s.center_cooldown_until then 0
    else
      let remaining_cooldown :=
        max 0 (s.center_cooldown_until - (now - s.inp.dwell_seconds))
      let active_time := s.inp.dwell_seconds - remaining_cooldown
      min 1 (max 0 (active_time / DWELL_CENTER_SEC))
  else if d ∈ DIAGONALS then
    min 1 (s.inp.dwell_seconds / DWELL_DIAGONAL_SEC)
  else 0

/-- `AppState._flash(direction)` (the argument is already a string at the
one call site that is not a direction: `self._flash(".")`). -/
def AppState.flash (s : AppState) (direction : String) (now : ℚ) : AppState :=
  { s with flash_direction := some direction, flash_end := now + 3 / 10 }

/-- `AppState._backspace()`. -/
def AppState.backspace (s : AppState) : AppState :=
  if s.pfx ≠ "" then { s with pfx := s.pfx.dropRight 1 }
  else if s.sentence ≠ "" then { s with sentence := s.sentence.dropRight 1 }
  else s

/-- `AppState._delete_word()`.  `sentence.strip().split(" ")` splits on the
literal separator (keeping empty pieces), unlike the no-argument split. -/
def AppState.delete_word (s : AppState) : AppState :=
  if s.pfx ≠ "" then { s with pfx := "" }
  else
    let words := s.sentence.trim.splitOn " "
    if words ≠ [] ∧ words ≠ [""] then
      let sent := String.intercalate " " words.dropLast
      let sent := if sent ≠ "" then sent ++ " " else sent
      { s with sentence := sent }
    else { s with sentence := "" }

/-- `AppState._accept_top_suggestion()`. -/
def AppState.accept_top_suggestion (s : AppState) : AppState :=
  if s.suggestions ≠ [] then
    { s with sentence := s.sentence ++ s.suggestions.headD "" ++ " "
             pfx := "", sugg_index := 0 }
  else s

/-- `AppState._send_message()`.  The name `log` is not defined anywhere in
app_state.py (no `import logging`, no `log = ...`), so once `message` is
non-empty the statement `log.info("Sending message: %r", message)` raises
`NameError`; the `tts.speak`, sentence-clearing and flash lines below it
are unreachable.  The returned state carries the partial mutations made
before the raise (prefix committed into the sentence). -/
def AppState.send_message (s : AppState) : AppState × TickEv :=
  let s :=
    if s.pfx ≠ "" then
      { s with sentence := s.sentence ++ s.pfx ++ " ", pfx := "" }
    else s
  let message := s.sentence.trim
  if message = "" then (s, TickEv.quiet)
  else (s, { spoke := [], fired := none, err := some .nameError_log })

/-- `AppState._select_current()`. -/
def AppState.select_current (s : AppState) : AppState × TickEv :=
  if s.sugg_index = 0 then
    let char := ALPHABET.getD (s.cursor_index % ALPHABET.length) ' '
    if char = '_' then
      ({ s with sentence := s.sentence ++ s.pfx ++ " ", pfx := "" }, TickEv.quiet)
    else if char = '<' then (s.backspace, TickEv.quiet)
    else if char = '[' then (s.delete_word, TickEv.quiet)
    else if char = ']' then ({ s with sentence := "", pfx := "" }, TickEv.quiet)
    else if char = '.' then s.send_message
    else ({ s with pfx := s.pfx.push char }, TickEv.quiet)
  else
    let idx := s.sugg_index - 1
    let s :=
      if idx < s.suggestions.length then
        { s with sentence := s.sentence ++ s.suggestions.getD idx "" ++ " "
                 pfx := "" }
      else s
    ({ s with sugg_index := 0 }, TickEv.quiet)

/-- `AppState._handle_center(now)`.  If `_select_current` raises, the
`reset_dwell`/cooldown lines after it do not run. -/
def AppState.handle_center (s : AppState) (now : ℚ) : AppState × TickEv :=
  if now < s.center_cooldown_until then (s, TickEv.quiet)
  else if s.mode = .WRITE ∧ 1 ≤ s.dwell_percent now then
    let r := s.select_current
    if r.2.err.isSome then r
    else
      ({ r.1 with inp := r.1.inp.reset_dwell now
                  center_cooldown_until := now + CENTER_COOLDOWN_SEC }, r.2)
  else (s, TickEv.quiet)

/-- `AppState._handle_cardinal(d, now)`.  Python `max(x - 1, 0)` on the
non-negative `sugg_index`/`transcript_scroll` is truncated `Nat`
subtraction, and `(cursor_index - 1) % len(ALPHABET)` (Python flooring mod)
is `(cursor_index + (len - 1)) % len`. -/
def AppState.handle_cardinal (s : AppState) (d : Dir) (now : ℚ) : AppState :=
  if now - s.last_scroll_time < SCROLL_COOLDOWN_SEC then s
  else
    let s := { s with last_scroll_time := now }
    if s.mode = .WRITE then
      if d = .E then
        { s with cursor_index := (s.cursor_index + 1) % ALPHABET.length }
      else if d = .W then
        { s with cursor_index :=
                   (s.cursor_index + (ALPHABET.length - 1)) % ALPHABET.length }
      else if d = .S then
        { s with sugg_index := min (s.sugg_index + 1) s.suggestions.length }
      else if d = .N then
        { s with sugg_index := s.sugg_index - 1 }
      else s
    else
      if d = .N then
        { s with transcript_scroll :=
                   min (s.transcript_scroll + 1) (s.captioner.transcript.length - 1) }
      else if d = .S then
        { s with transcript_scroll := s.transcript_scroll - 1 }
      else s

/-- `AppState._handle_diagonal(d)` (`now` feeds `dwell_percent`,
`reset_dwell` and `_flash`, which read the clock inside the call). -/
def AppState.handle_diagonal (s : AppState) (d : Dir) (now : ℚ) :
    AppState × TickEv :=
  if s.diagonal_fired.isSome then (s, TickEv.quiet)
  else if s.dwell_percent now < 1 then (s, TickEv.quiet)
  else
    let s := { s with diagonal_fired := some d, inp := s.inp.reset_dwell now }
    let s := s.flash d.str now
    let ev : TickEv := { spoke := [], fired := some d, err := none }
    if d = .NW then
      (if s.mode = .WRITE then { s with mode := .CAPTION }
       else { s with mode := .WRITE }, ev)
    else if s.mode = .WRITE then
      if d = .NE then (s.accept_top_suggestion, ev)
      else if d = .SE then (s.backspace, ev)
      else if d = .SW then (s.delete_word, ev)
      else (s, ev)
    else
      if d = .NE then
        let word := s.captioner.get_last_word
        (if word ≠ "" then { s with pfx := word, mode := .WRITE } else s, ev)
      else if d = .SE then ({ s with captioner := s.captioner.toggle_pause }, ev)
      else if d = .SW then
        ({ s with captioner := s.captioner.clear, transcript_scroll := 0 }, ev)
      else (s, ev)

/-- Statement `self.input.update(roll, pitch)` of `AppState.update`. -/
def AppState.phaseInput (s : AppState) (d : Dir) (now : ℚ) : AppState :=
  { s with inp := s.inp.update d now }

/-- The "Clear flash" block of `AppState.update`. -/
def AppState.phaseFlash (s : AppState) (now : ℚ) : AppState :=
  if s.flash_end < now then { s with flash_direction := none } else s

/-- The "Track center cooldown" block of `AppState.update`. -/
def AppState.phaseCooldown (s : AppState) (d : Dir) (now : ℚ) : AppState :=
  if d ≠ .CENTER then { s with was_off_center := true }
  else if s.was_off_center then
    { s with was_off_center := false
             center_cooldown_until := now + CENTER_COOLDOWN_SEC
             inp := s.inp.reset_dwell now }
  else s

/-- The "Reset diagonal lock when direction changes" block of
`AppState.update` (`d != self._diagonal_fired`: a direction string never
equals Python `False`). -/
def AppState.phaseLock (s : AppState) (d : Dir) : AppState :=
  if some d ≠ s.diagonal_fired then { s with diagonal_fired := none } else s

/-- The "Update suggestions for write mode" block of `AppState.update`. -/
def AppState.phaseSuggest (s : AppState) : AppState :=
  if s.mode = .WRITE then
    let r := s.predictor.get_suggestions s.pfx s.sentence 3
    { s with suggestions := r.1, ngram_level := r.2.1, ngram_context := r.2.2 }
  else s

/-- The "Update captioner" block of `AppState.update` (the captioner's
`update` is a no-op). -/
def AppState.phaseCaption (s : AppState) : AppState :=
  if s.mode = .CAPTION then { s with captioner := s.captioner.update } else s

/-- The pre-dispatch part of `AppState.update`: the five sequential
statement blocks in source order. -/
def AppState.preTick (s : AppState) (d : Dir) (now : ℚ) : AppState :=
  (((((s.phaseInput d now).phaseFlash now).phaseCooldown d now).phaseLock
    d).phaseSuggest).phaseCaption

/-- `AppState.update(roll, pitch)`: `d` is the classified direction
`_snap_direction(roll, pitch)` and `now` the tick's clock reading; the
sequential body is `preTick` followed by the dispatch on the direction
class. -/
def AppState.update (s : AppState) (d : Dir) (now : ℚ) : AppState × TickEv :=
  let s := s.preTick d now
  if d = .CENTER then s.handle_center now
  else if d ∈ CARDINALS then (s.handle_cardinal d now, TickEv.quiet)
  else if d ∈ DIAGONALS then s.handle_diagonal d now
  else (s, TickEv.quiet)

/-- Fold a list of (classified direction, timestamp) ticks through
`AppState.update`, keeping the final state. -/
def AppState.run (s : AppState) : List (Dir × ℚ) → AppState
  | [] => s
  | (d, t) :: rest => AppState.run (s.update d t).1 rest

/-- Number of ticks on which a diagonal action fires while folding
constant-direction ticks at the given times. -/
def AppState.firesConst (s : AppState) (d : Dir) : List ℚ → Nat
  | [] => 0
  | t :: ts =>
    (if ((s.update d t).2.fired).isSome then 1 else 0) +
      AppState.firesConst (s.update d t).1 d ts

/-- A state is reachable when some sequence of classified ticks leads to it
from a freshly constructed `AppState`. -/
def Reach (s : AppState) : Prop :=
  ∃ (pt : PredictiveText) (t0 : ℚ) (steps : List (Dir × ℚ)),
    (AppState.init pt t0).run steps = s

/-! ### Concrete instances used by the claim theorems -/

/-- All five predictive-data files missing. -/
def filesAllMissing : NgramFiles :=
  { unigram_file := none, bigram_file := none, trigram_file := none
    quadrigram_file := none, pentagram_file := none }

/-- The table state after constructing with all files missing: the
hardcoded unigram fallback and empty context tables. -/
def ptDflt : PredictiveText :=
  { unigrams := DEFAULT_UNIGRAMS, bigrams := [], trigrams := []
    quadrigrams := [], pentagrams := [] }

/-- Table state with a pentagram entry for ("A","B","C","D") holding one
candidate and a quadrigram entry for ("B","C","D"). -/
def ptOneHit : PredictiveText :=
  { unigrams := [], bigrams := [], trigrams := []
    quadrigrams := [(("B", "C", "D"), ["Y"])]
    pentagrams := [(("A", "B", "C", "D"), ["X"])] }

/-- Table state with three candidates in the pentagram entry for
("A","B","C","D"). -/
def ptThreeHits : PredictiveText :=
  { unigrams := [], bigrams := [], trigrams := []
    quadrigrams := []
    pentagrams := [(("A", "B", "C", "D"), ["X1", "X2", "X3"])] }

/-- Table state whose unigram list has no word starting with "TH". -/
def ptNoTH : PredictiveText :=
  { unigrams := ["AAA"], bigrams := [], trigrams := [], quadrigrams := []
    pentagrams := [] }

/-- Table state with two unigrams starting with "TH". -/
def ptTH : PredictiveText :=
  { unigrams := ["THE", "CAT", "THIS"], bigrams := [], trigrams := []
    quadrigrams := [], pentagrams := [] }

/-- A unigram data file that exists but whose CSV has no `ngram` column. -/
def filesMalformedUnigram : NgramFiles :=
  { unigram_file := some [none], bigram_file := none, trigram_file := none
    quadrigram_file := none, pentagram_file := none }

/-- Table state reachable from a 1-row unigram file ("b") and a 3-row
bigram file ("b x", "b y", "b z"), the other three files missing. -/
def ptShrink : PredictiveText :=
  { unigrams := ["B"], bigrams := [("B", ["X", "Y", "Z"])], trigrams := []
    quadrigrams := [], pentagrams := [] }

/-- State reached from a fresh `AppState` by: toggling to WRITE (NW dwell),
committing the letter under the cursor ('A') by a 3 s CENTER dwell, one
cardinal-W step moving the cursor to the '.' glyph, and returning to
CENTER.  The next CENTER tick at `t = 17` completes the commit dwell. -/
def sDotReady : AppState :=
  (AppState.init ptDflt 0).run
    [(.NW, 1), (.NW, 7/2), (.CENTER, 4), (.CENTER, 9), (.W, 21/2), (.CENTER, 11)]

/-- State reached from a fresh `AppState` (tables `ptShrink`) by: NW dwell
to WRITE, NE dwell accepting the sole suggestion "B" (sentence "B "),
three cardinal-S ticks raising `sugg_index` to 3 while three bigram
suggestions are shown, SW dwell deleting the last sentence word, and one
CENTER tick so the suggestions are recomputed for the empty context. -/
def sShrunk : AppState :=
  (AppState.init ptShrink 0).run
    [(.NW, 1), (.NW, 7/2), (.NE, 4), (.NE, 13/2), (.S, 7), (.S, 38/5),
     (.S, 41/5), (.SW, 42/5), (.SW, 21/2), (.CENTER, 11)]

/-- The claim C3 scenario state: WRITE mode, sentence "HI ", prefix
"THERE", alphabet row selected with the cursor on the '.' glyph, CENTER
held long enough (dwell 5 s at `now = 5`, no pending cooldown). -/
def sHiThere : AppState :=
  { AppState.init ptDflt 0 with
    mode := .WRITE, sentence := "HI ", pfx := "THERE", cursor_index := 30 }

/-- The C3 empty-commit scenario: like `sHiThere` but with a
whitespace-only sentence and empty prefix. -/
def sBlank : AppState :=
  { AppState.init ptDflt 0 with
    mode := .WRITE, sentence := "  ", pfx := "", cursor_index := 30 }

/-- A WRITE-mode state dwelling on the NE diagonal for 1 s. -/
def sDiag : AppState :=
  { AppState.init ptDflt 0 with
    inp := { direction := .NE, current_dir := .NE, dwell_start := 0
             dwell_seconds := 1 } }

/-- A state whose NE ActionLock is armed (as after an NE fire). -/
def sLockedNE : AppState :=
  { AppState.init ptDflt 0 with
    inp := { direction := .NE, current_dir := .NE, dwell_start := 0
             dwell_seconds := 0 }
    diagonal_fired := some .NE }

/-- The spec's clamp01 (§4.2: "percent = clamp01(...)"). -/
def clamp01 (x : ℚ) : ℚ := min 1 (max 0 x)

set_option maxRecDepth 40000
set_option maxHeartbeats 1000000

/-! ### Claim theorems -/

/-- Claim C10: immediately after construction the mode is CAPTION (not
WRITE) and the editing state is empty: sentence, prefix, cursor, suggestion
slot, transcript scroll, suggestion list and diagonal ActionLock all start
out cleared. -/
theorem init_caption_and_empty (pt : PredictiveText) (t0 : ℚ) :
    (AppState.init pt t0).mode = Mode.CAPTION ∧
    (AppState.init pt t0).mode ≠ Mode.WRITE ∧
    (AppState.init pt t0).sentence = "" ∧
    (AppState.init pt t0).pfx = "" ∧
    (AppState.init pt t0).cursor_index = 0 ∧
    (AppState.init pt t0).sugg_index = 0 ∧
    (AppState.init pt t0).transcript_scroll = 0 ∧
    (AppState.init pt t0).suggestions = [] ∧
    (AppState.init pt t0).diagonal_fired = none :=
  ⟨rfl, fun h => Mode.noConfusion h, rfl, rfl, rfl, rfl, rfl, rfl, rfl⟩

/-- Claim C1 (evidence of the code bug): from a freshly constructed state,
the reachable state `sDotReady` (WRITE mode, prefix "A", cursor on the '.'
glyph, CENTER held) makes the next `update` tick raise `NameError` — the
module-level name `log` used by `_send_message` is never defined in
app_state.py — instead of running to completion; no speak call happens. -/
theorem update_raises_name_error_on_dot_commit :
    (sDotReady.update .CENTER 17).2.err = some .nameError_log ∧
    (sDotReady.update .CENTER 17).2.spoke = [] ∧
    sDotReady.mode = Mode.WRITE ∧ sDotReady.pfx = "A" ∧
    ALPHABET.getD (sDotReady.cursor_index % ALPHABET.length) ' ' = '.' := by
  with_unfolding_all decide

/-- Claim C3 (evidence of the code bug): committing '.' with
sentence = "HI ", prefix = "THERE" first appends the prefix (sentence
becomes "HI THERE "), but then `_send_message` raises `NameError` at its
`log.info` line (`log` is undefined in app_state.py), so `speak` is never
invoked and the sentence is not reset to "".  The empty-commit half of the
claim does hold: with a whitespace-only sentence nothing is spoken, no
exception is raised, and sentence/prefix are unchanged. -/
theorem dot_commit_no_speak_and_partial_state :
    (sHiThere.update .CENTER 5).2.spoke = [] ∧
    (sHiThere.update .CENTER 5).2.err = some .nameError_log ∧
    (sHiThere.update .CENTER 5).1.sentence = "HI THERE " ∧
    (sHiThere.update .CENTER 5).1.pfx = "" ∧
    (sBlank.update .CENTER 5).2 = TickEv.quiet ∧
    (sBlank.update .CENTER 5).1.sentence = "  " ∧
    (sBlank.update .CENTER 5).1.pfx = "" := by
  with_unfolding_all decide

/-- Claim C2 (counterexample): a table state with a pentagram entry for the
last four context words whose sole candidate "X" passes the (empty) prefix
filter, yet `get_suggestions` falls through to the quadrigram table —
returning level "4G" and candidates not drawn from the pentagram entry —
because a pentagram hit list shorter than `max_results` does not stop the
backoff, and the later step overwrites the candidates. -/
theorem pentagram_fallthrough_cx :
    ptOneHit.get_suggestions "" "A B C D" 3 = (["Y"], "4G", "B C D") ∧
    ptOneHit.pentagrams.lookup (pentaKey (ctxWords "A B C D")) = some ["X"] ∧
    pentaHits ptOneHit "" "A B C D" = ["X"] := by
  with_unfolding_all decide

/-- Claim C6 (counterexample): the state `sShrunk`, reachable from a fresh
`AppState` by the trace in its definition, has `sugg_index = 3` but only
one suggestion — the invariant `sugg_index ∈ [0, len(suggestions)]` is not
preserved because suggestion recomputation after the SW delete-word action
shrinks the list without re-clamping `sugg_index`. -/
theorem sugg_index_exceeds_count_cx :
    sShrunk.suggestions.length < sShrunk.sugg_index ∧
    sShrunk.sugg_index = 3 ∧ sShrunk.suggestions = ["B"] := by
  with_unfolding_all decide

/-- Claim C7 (counterexample): with a table state whose unigrams contain no
word starting with "TH", `get_suggestions("TH", "")` returns the top
unigrams unconditionally (step 6 ignores the prefix filter), so a returned
candidate does not start with the normalized prefix. -/
theorem unfiltered_fallback_cx :
    ptNoTH.get_suggestions "TH" "" 3 = (["AAA"], "1G", "—") ∧
    "AAA".startsWith "TH" = false := by
  with_unfolding_all decide

/-- Claim C8 (counterexample): a unigram data file that exists but whose
CSV lacks the `ngram` column makes construction raise `KeyError` — only
`FileNotFoundError` is caught, so a malformed existing file does not
degrade gracefully. -/
theorem construct_key_error_cx :
    PredictiveText.construct filesMalformedUnigram =
      .error (.keyError "ngram") := by
  with_unfolding_all rfl

/-- Step 1 of the backoff resolves to the prefix-filtered pentagram entry
when the context has at least four words, the table is non-empty, and the
filter leaves something. -/
theorem try5g_hit (pt : PredictiveText) (pfx : String) (prev : List String)
    (hn : 4 ≤ prev.length) (hp : pt.pentagrams ≠ [])
    (hne : filter_by_pfx ((pt.pentagrams.lookup (pentaKey prev)).getD []) pfx ≠ []) :
    try5g pt pfx prev =
      (filter_by_pfx ((pt.pentagrams.lookup (pentaKey prev)).getD []) pfx,
       "5G", pentaKeyStr prev) := by
  have hc : 4 ≤ prev.length ∧ pt.pentagrams ≠ [] := ⟨hn, hp⟩
  unfold try5g
  rw [if_pos hc]
  dsimp only
  rw [if_pos hne]

/-- Step 2 is a no-op once `max_results` candidates are accumulated. -/
theorem try4g_skip (pt : PredictiveText) (pfx : String) (prev : List String)
    (m : Nat) (acc : SuggAcc) (h : ¬ acc.1.length < m) :
    try4g pt pfx prev m acc = acc := by
  unfold try4g
  exact if_neg (fun hcon => h hcon.1)

/-- Step 3 is a no-op once `max_results` candidates are accumulated. -/
theorem try3g_skip (pt : PredictiveText) (pfx : String) (prev : List String)
    (m : Nat) (acc : SuggAcc) (h : ¬ acc.1.length < m) :
    try3g pt pfx prev m acc = acc := by
  unfold try3g
  exact if_neg (fun hcon => h hcon.1)

/-- Step 4 is a no-op once `max_results` candidates are accumulated. -/
theorem try2g_skip (pt : PredictiveText) (pfx : String) (prev : List String)
    (m : Nat) (acc : SuggAcc) (h : ¬ acc.1.length < m) :
    try2g pt pfx prev m acc = acc := by
  unfold try2g
  exact if_neg (fun hcon => h hcon.1)

/-- Step 5 is a no-op once `max_results` candidates are accumulated. -/
theorem try1g_skip (pt : PredictiveText) (pfx : String) (m : Nat)
    (acc : SuggAcc) (h : ¬ acc.1.length < m) :
    try1g pt pfx m acc = acc := by
  unfold try1g
  exact if_neg h

/-- Step 6 is a no-op when any candidate was accumulated. -/
theorem lastResort_skip (pt : PredictiveText) (m : Nat) (acc : SuggAcc)
    (h : acc.1 ≠ []) : lastResort pt m acc = acc := by
  unfold lastResort
  exact if_neg h

/-- Claim C2 (amended): when the context has ≥ 4 words and at least
`max_results` candidates of the pentagram entry for the last 4 words pass
the prefix filter, `get_suggestions` reports level "5G" with candidates
drawn from that entry only.  (The unamended claim — any non-empty hit list
suffices — is refuted by `pentagram_fallthrough_cx`: fewer than
`max_results` pentagram hits let the backoff continue and a quadrigram hit
replaces them.) -/
theorem pentagram_priority_when_full (pt : PredictiveText)
    (input ctx : String) (m : Nat) (hm : 1 ≤ m)
    (hn : 4 ≤ (ctxWords ctx).length)
    (hh : m ≤ (pentaHits pt input ctx).length) :
    pt.get_suggestions input ctx m =
      ((pentaHits pt input ctx).take m, "5G", pentaKeyStr (ctxWords ctx)) := by
  have hne : pentaHits pt input ctx ≠ [] := List.length_pos.mp (by omega)
  have hpent : pt.pentagrams ≠ [] := by
    intro h0
    apply hne
    simp [pentaHits, h0, filter_by_pfx, List.lookup]
  have hnotlt : ¬ (pentaHits pt input ctx).length < m := by omega
  have hne' : filter_by_pfx
      ((pt.pentagrams.lookup (pentaKey (ctxWords ctx))).getD [])
      (normPfx input) ≠ [] := hne
  simp only [PredictiveText.get_suggestions]
  rw [try5g_hit pt _ _ hn hpent hne',
      try4g_skip pt _ _ m _ hnotlt,
      try3g_skip pt _ _ m _ hnotlt,
      try2g_skip pt _ _ m _ hnotlt,
      try1g_skip pt _ m _ hnotlt,
      lastResort_skip pt m _ hne']
  rfl

/-- Witness for `pentagram_priority_when_full`: three pentagram candidates
for context "A B C D" with an empty prefix give exactly those three at
level "5G". -/
theorem pentagram_priority_when_full_witness :
    ptThreeHits.get_suggestions "" "A B C D" 3 =
      (["X1", "X2", "X3"], "5G", "A B C D") := by
  have h := pentagram_priority_when_full ptThreeHits "" "A B C D" 3
    (by norm_num) (by with_unfolding_all decide) (by with_unfolding_all decide)
  rw [h]
  with_unfolding_all decide

/-- Merging into an empty primary list returns the secondary list. -/
theorem merge_nil (l : List String) : merge [] l = l := by
  induction l with
  | nil => rfl
  | cons x xs ih => simp_all [merge]

/-- Claim C7 (amended): with a non-empty normalized prefix and empty
context, every returned candidate starts with the prefix PROVIDED at least
one unigram matches it; otherwise the step-6 fallback returns the top
unigrams with the prefix filter ignored (refuted unamended by
`unfiltered_fallback_cx`). -/
theorem suggestions_respect_pfx_when_match (pt : PredictiveText)
    (input : String) (m : Nat)
    (hp : normPfx input ≠ "")
    (hne : filter_by_pfx pt.unigrams (normPfx input) ≠ []) :
    ∀ w ∈ (pt.get_suggestions input "" m).1,
      w.startsWith (normPfx input) = true := by
  have hctx : ctxWords "" = [] := by with_unfolding_all decide
  have h5 : try5g pt (normPfx input) [] = ([], "—", "") := by
    unfold try5g
    rw [if_neg (by simp)]
  have h4 : try4g pt (normPfx input) [] m ([], "—", "") = ([], "—", "") := by
    unfold try4g
    rw [if_neg (by simp)]
  have h3 : try3g pt (normPfx input) [] m ([], "—", "") = ([], "—", "") := by
    unfold try3g
    rw [if_neg (by simp)]
  have h2 : try2g pt (normPfx input) [] m ([], "—", "") = ([], "—", "") := by
    unfold try2g
    rw [if_neg (by simp)]
  simp only [PredictiveText.get_suggestions, hctx, h5, h4, h3, h2]
  rcases Nat.eq_zero_or_pos m with hm | hm
  · subst hm
    simp [try1g, lastResort]
  · have h1 : try1g pt (normPfx input) m ([], "—", "") =
        (filter_by_pfx pt.unigrams (normPfx input), "1G",
         if normPfx input = "" then "—" else normPfx input) := by
      unfold try1g
      rw [if_pos (by simpa using hm)]
      dsimp only
      rw [if_pos ⟨rfl, hne⟩, merge_nil]
    rw [h1, lastResort_skip pt m _ hne]
    dsimp only
    intro w hw
    have hw' : w ∈ filter_by_pfx pt.unigrams (normPfx input) :=
      List.take_subset m _ hw
    unfold filter_by_pfx at hw'
    rw [if_neg hp] at hw'
    exact (List.mem_filter.mp hw').2

/-- Witness for `suggestions_respect_pfx_when_match`: unigrams
["THE", "CAT", "THIS"] with prefix "TH" — every returned candidate starts
with "TH". -/
theorem suggestions_respect_pfx_when_match_witness :
    (ptTH.get_suggestions "TH" "" 3).1.all
      (fun w => w.startsWith (normPfx "TH")) = true :=
  List.all_eq_true.mpr
    (fun w hw => suggestions_respect_pfx_when_match ptTH "TH" 3
      (by with_unfolding_all decide) (by with_unfolding_all decide) w hw)

/-- A data file is well-formed when, if present, every CSV row carries the
`ngram` column. -/
def fileWF : NgramFile → Prop
  | none => True
  | some rows => ∀ r ∈ rows, r ≠ none

/-- The unigram row loop succeeds on a well-formed file. -/
theorem unigramRows_ok (rows : List (Option String))
    (h : ∀ r ∈ rows, r ≠ none) : ∃ l, unigramRows rows = .ok l := by
  induction rows with
  | nil => exact ⟨[], rfl⟩
  | cons r rest ih =>
    obtain ⟨l, hl⟩ := ih (fun x hx => h x (by simp [hx]))
    match r, h r (by simp) with
    | some v, _ => exact ⟨_, by simp only [unigramRows, hl]; rfl⟩

/-- The bigram row loop succeeds on a well-formed file. -/
theorem bigramRows_ok (rows : List (Option String))
    (h : ∀ r ∈ rows, r ≠ none) :
    ∀ acc, ∃ l, bigramRows acc rows = .ok l := by
  induction rows with
  | nil => exact fun acc => ⟨acc, rfl⟩
  | cons r rest ih =>
    intro acc
    match r, h r (by simp) with
    | some v, _ =>
      simp only [bigramRows]
      split <;> exact ih (fun x hx => h x (by simp [hx])) _

/-- The trigram row loop succeeds on a well-formed file. -/
theorem trigramRows_ok (rows : List (Option String))
    (h : ∀ r ∈ rows, r ≠ none) :
    ∀ acc, ∃ l, trigramRows acc rows = .ok l := by
  induction rows with
  | nil => exact fun acc => ⟨acc, rfl⟩
  | cons r rest ih =>
    intro acc
    match r, h r (by simp) with
    | some v, _ =>
      simp only [trigramRows]
      split <;> exact ih (fun x hx => h x (by simp [hx])) _

/-- The quadrigram row loop succeeds on a well-formed file. -/
theorem quadrigramRows_ok (rows : List (Option String))
    (h : ∀ r ∈ rows, r ≠ none) :
    ∀ acc, ∃ l, quadrigramRows acc rows = .ok l := by
  induction rows with
  | nil => exact fun acc => ⟨acc, rfl⟩
  | cons r rest ih =>
    intro acc
    match r, h r (by simp) with
    | some v, _ =>
      simp only [quadrigramRows]
      split <;> exact ih (fun x hx => h x (by simp [hx])) _

/-- The pentagram row loop succeeds on a well-formed file. -/
theorem pentagramRows_ok (rows : List (Option String))
    (h : ∀ r ∈ rows, r ≠ none) :
    ∀ acc, ∃ l, pentagramRows acc rows = .ok l := by
  induction rows with
  | nil => exact fun acc => ⟨acc, rfl⟩
  | cons r rest ih =>
    intro acc
    match r, h r (by simp) with
    | some v, _ =>
      simp only [pentagramRows]
      split <;> exact ih (fun x hx => h x (by simp [hx])) _

/-- Claim C8 (amended): construction never raises for any combination of
MISSING and well-formed files — a missing n-gram file degrades its table to
empty and a missing unigram file falls back to the hardcoded 10-word list —
but an existing malformed file (a row without the `ngram` column) raises
`KeyError` and halts construction (`construct_key_error_cx`), since only
`FileNotFoundError` is caught. -/
theorem construct_ok_and_missing_degrade (files : NgramFiles)
    (h1 : fileWF files.unigram_file) (h2 : fileWF files.bigram_file)
    (h3 : fileWF files.trigram_file) (h4 : fileWF files.quadrigram_file)
    (h5 : fileWF files.pentagram_file) :
    (PredictiveText.construct files).isOk = true ∧
    load_unigrams none = .ok DEFAULT_UNIGRAMS ∧
    load_bigrams none = .ok [] ∧
    load_trigrams none = .ok [] ∧
    load_quadrigrams none = .ok [] ∧
    load_pentagrams none = .ok [] := by
  refine ⟨?_, rfl, rfl, rfl, rfl, rfl⟩
  have e1 : ∃ l, load_unigrams files.unigram_file = .ok l := by
    match hf : files.unigram_file, h1 with
    | none, _ => exact ⟨_, rfl⟩
    | some rows, hwf => exact unigramRows_ok rows hwf
  have e2 : ∃ l, load_bigrams files.bigram_file = .ok l := by
    match hf : files.bigram_file, h2 with
    | none, _ => exact ⟨_, rfl⟩
    | some rows, hwf => exact bigramRows_ok rows hwf []
  have e3 : ∃ l, load_trigrams files.trigram_file = .ok l := by
    match hf : files.trigram_file, h3 with
    | none, _ => exact ⟨_, rfl⟩
    | some rows, hwf => exact trigramRows_ok rows hwf []
  have e4 : ∃ l, load_quadrigrams files.quadrigram_file = .ok l := by
    match hf : files.quadrigram_file, h4 with
    | none, _ => exact ⟨_, rfl⟩
    | some rows, hwf => exact quadrigramRows_ok rows hwf []
  have e5 : ∃ l, load_pentagrams files.pentagram_file = .ok l := by
    match hf : files.pentagram_file, h5 with
    | none, _ => exact ⟨_, rfl⟩
    | some rows, hwf => exact pentagramRows_ok rows hwf []
  obtain ⟨u, hu⟩ := e1
  obtain ⟨b, hb⟩ := e2
  obtain ⟨t, ht⟩ := e3
  obtain ⟨q, hq⟩ := e4
  obtain ⟨p, hp⟩ := e5
  simp only [PredictiveText.construct, hu, hb, ht, hq, hp]
  rfl

/-- Witness for `construct_ok_and_missing_degrade`: all five files
missing — construction succeeds with the default unigrams and empty
context tables. -/
theorem construct_ok_and_missing_degrade_witness :
    (PredictiveText.construct filesAllMissing).isOk = true ∧
    load_unigrams none = .ok DEFAULT_UNIGRAMS ∧
    load_bigrams none = .ok [] ∧
    load_trigrams none = .ok [] ∧
    load_quadrigrams none = .ok [] ∧
    load_pentagrams none = .ok [] :=
  construct_ok_and_missing_degrade filesAllMissing trivial trivial trivial
    trivial trivial

/-- Claim C5: `dwell_percent` equals the spec's literal formula — 0 for
CENTER in CAPTION; 0 for CENTER in WRITE under cooldown; otherwise, for
CENTER in WRITE, clamp01((dwell − max(0, cooldown_until − (now − dwell)))/3);
clamp01(dwell/2) for a diagonal; 0 for a cardinal.  The hypothesis
`0 ≤ dwell_seconds` holds in every state produced by non-decreasing clock
readings (the code uses `min(1.0, ·)` where the spec says clamp01 on the
diagonal branch; the two agree for non-negative dwell). -/
theorem dwell_percent_formula (s : AppState) (now : ℚ)
    (h : 0 ≤ s.inp.dwell_seconds) :
    s.dwell_percent now =
      if s.inp.direction = .CENTER then
        if s.mode = .CAPTION then 0
        else if now < s.center_cooldown_until then 0
        else
          clamp01 ((s.inp.dwell_seconds -
            max 0 (s.center_cooldown_until - (now - s.inp.dwell_seconds))) / 3)
      else if s.inp.direction ∈ DIAGONALS then
        clamp01 (s.inp.dwell_seconds / 2)
      else 0 := by
  by_cases hc : s.inp.direction = .CENTER
  · by_cases hm : s.mode = .CAPTION
    · simp [AppState.dwell_percent, hc, hm]
    · by_cases hcd : now < s.center_cooldown_until
      · simp [AppState.dwell_percent, hc, hm, hcd]
      · simp [AppState.dwell_percent, clamp01, DWELL_CENTER_SEC, hc, hm, hcd]
  · by_cases hdg : s.inp.direction ∈ DIAGONALS
    · have h2 : max 0 (s.inp.dwell_seconds / 2) = s.inp.dwell_seconds / 2 :=
        max_eq_right (div_nonneg h (by norm_num))
      simp [AppState.dwell_percent, clamp01, DWELL_DIAGONAL_SEC, hc, hdg, h2]
    · simp [AppState.dwell_percent, hc, hdg]

/-- Witness for `dwell_percent_formula` at the concrete state `sDiag`
(NE held 1 s): the hypothesis holds and the formula gives 1/2. -/
theorem dwell_percent_formula_witness :
    0 ≤ sDiag.inp.dwell_seconds ∧ sDiag.dwell_percent 1 = clamp01 (1 / 2) := by
  constructor
  · with_unfolding_all decide
  · have h := dwell_percent_formula sDiag 1 (by with_unfolding_all decide)
    rw [h]
    with_unfolding_all decide

/-- One-step characterization of `InputProcessor.update` when the
classified direction equals the stored one. -/
theorem up_same (p : InputProcessor) (d : Dir) (now : ℚ)
    (h : d = p.current_dir) :
    p.update d now =
      { p with direction := d, dwell_seconds := now - p.dwell_start } := by
  unfold InputProcessor.update
  rw [if_neg (by simp [h])]

/-- One-step characterization of `InputProcessor.update` when the
classified direction differs from the stored one. -/
theorem up_diff (p : InputProcessor) (d : Dir) (now : ℚ)
    (h : d ≠ p.current_dir) :
    p.update d now =
      { direction := d, current_dir := d, dwell_start := now
        dwell_seconds := 0 } := by
  unfold InputProcessor.update
  rw [if_pos h]

/-- After any `InputProcessor.update`, the stored direction is the
classified one. -/
theorem up_current (p : InputProcessor) (d : Dir) (now : ℚ) :
    (p.update d now).current_dir = d := by
  by_cases h : d = p.current_dir
  · rw [up_same p d now h]; exact h.symm
  · rw [up_diff p d now h]

/-- Claim C9: for consecutive `InputProcessor.update` calls with
non-decreasing timestamps, a call whose classified direction equals the
stored direction leaves `dwell_seconds` non-decreasing, and a call whose
classified direction differs resets `dwell_seconds` to 0 and the stored
start time to the current timestamp. -/
theorem dwell_monotone_and_reset (p : InputProcessor) (d1 d2 : Dir)
    (t1 t2 : ℚ) (h : t1 ≤ t2) :
    (d2 = (p.update d1 t1).current_dir →
      (p.update d1 t1).dwell_seconds ≤
        ((p.update d1 t1).update d2 t2).dwell_seconds) ∧
    (d2 ≠ (p.update d1 t1).current_dir →
      ((p.update d1 t1).update d2 t2).dwell_seconds = 0 ∧
      ((p.update d1 t1).update d2 t2).dwell_start = t2) := by
  constructor
  · intro hsame
    rw [up_same _ _ _ hsame]
    by_cases h1 : d1 = p.current_dir
    · rw [up_same _ _ _ h1]; dsimp; linarith
    · rw [up_diff _ _ _ h1]; dsimp; linarith
  · intro hdiff
    rw [up_diff _ _ _ hdiff]
    exact ⟨rfl, rfl⟩

/-- Witness for `dwell_monotone_and_reset`: from a fresh processor, a
repeated CENTER at times 1 ≤ 2 keeps dwell non-decreasing, and a switch to
NE at time 2 resets dwell to 0 with start time 2. -/
theorem dwell_monotone_and_reset_witness :
    ((InputProcessor.init 0).update .CENTER 1).dwell_seconds ≤
      (((InputProcessor.init 0).update .CENTER 1).update .CENTER 2).dwell_seconds ∧
    (((InputProcessor.init 0).update .CENTER 1).update .NE 2).dwell_seconds = 0 ∧
    (((InputProcessor.init 0).update .CENTER 1).update .NE 2).dwell_start = 2 := by
  refine ⟨(dwell_monotone_and_reset (InputProcessor.init 0) .CENTER .CENTER 1 2
      (by norm_num)).1 (by with_unfolding_all decide),
    (dwell_monotone_and_reset (InputProcessor.init 0) .CENTER .NE 1 2
      (by norm_num)).2 (by with_unfolding_all decide)⟩

/-- The suggestion list returned by `get_suggestions` never exceeds
`max_results` entries. -/
theorem get_suggestions_len_le (pt : PredictiveText) (i c : String) (m : Nat) :
    (pt.get_suggestions i c m).1.length ≤ m := by
  simp only [PredictiveText.get_suggestions]
  rw [List.length_take]
  exact min_le_left _ _

/-- `phaseFlash` only changes `flash_direction`. -/
theorem phaseFlash_shape (s : AppState) (now : ℚ) :
    ∃ fd, s.phaseFlash now = { s with flash_direction := fd } := by
  unfold AppState.phaseFlash
  split_ifs <;> exact ⟨_, rfl⟩

/-- `phaseCooldown` only changes the cooldown bookkeeping and the dwell. -/
theorem phaseCooldown_shape (s : AppState) (d : Dir) (now : ℚ) :
    ∃ w c i, s.phaseCooldown d now =
      { s with was_off_center := w, center_cooldown_until := c, inp := i } := by
  unfold AppState.phaseCooldown
  split_ifs <;> exact ⟨_, _, _, rfl⟩

/-- `phaseLock` only changes the diagonal lock. -/
theorem phaseLock_shape (s : AppState) (d : Dir) :
    ∃ df, s.phaseLock d = { s with diagonal_fired := df } := by
  unfold AppState.phaseLock
  split_ifs <;> exact ⟨_, rfl⟩

/-- `phaseSuggest` only changes the suggestion fields, and a recomputed
list has at most 3 entries. -/
theorem phaseSuggest_shape (s : AppState) :
    ∃ sg lv cx, s.phaseSuggest =
      { s with suggestions := sg, ngram_level := lv, ngram_context := cx } ∧
      (sg = s.suggestions ∨ sg.length ≤ 3) := by
  unfold AppState.phaseSuggest
  split_ifs
  · exact ⟨_, _, _, rfl, Or.inr (get_suggestions_len_le _ _ _ _)⟩
  · exact ⟨_, _, _, rfl, Or.inl rfl⟩

/-- `phaseCaption` only changes the captioner. -/
theorem phaseCaption_shape (s : AppState) :
    ∃ cap, s.phaseCaption = { s with captioner := cap } := by
  unfold AppState.phaseCaption
  split_ifs <;> exact ⟨_, rfl⟩

/-- The pre-dispatch part of a tick leaves the editing fields (mode,
sentence, prefix, cursor, sugg_index, scroll) untouched, and any
recomputed suggestion list has at most 3 entries. -/
theorem preTick_shape (s : AppState) (d : Dir) (now : ℚ) :
    ∃ i fd w c df sg lv cx cap,
      s.preTick d now =
        { s with inp := i, flash_direction := fd, was_off_center := w,
                 center_cooldown_until := c, diagonal_fired := df,
                 suggestions := sg, ngram_level := lv, ngram_context := cx,
                 captioner := cap } ∧
      (sg = s.suggestions ∨ sg.length ≤ 3) := by
  obtain ⟨fd, h2⟩ := phaseFlash_shape (s.phaseInput d now) now
  obtain ⟨w, c, i, h3⟩ :=
    phaseCooldown_shape ((s.phaseInput d now).phaseFlash now) d now
  obtain ⟨df, h4⟩ :=
    phaseLock_shape (((s.phaseInput d now).phaseFlash now).phaseCooldown d now) d
  obtain ⟨sg, lv, cx, h5, hsg⟩ := phaseSuggest_shape
    ((((s.phaseInput d now).phaseFlash now).phaseCooldown d now).phaseLock d)
  obtain ⟨cap, h6⟩ := phaseCaption_shape
    (((((s.phaseInput d now).phaseFlash now).phaseCooldown d
      now).phaseLock d).phaseSuggest)
  refine ⟨i, fd, w, c, df, sg, lv, cx, cap, ?_, ?_⟩
  · unfold AppState.preTick
    rw [h6, h5, h4, h3, h2]
    rfl
  · rcases hsg with h | h
    · rw [h, h4, h3, h2]
      exact Or.inl rfl
    · exact Or.inr h

/-- `_select_current` never changes the suggestion list. -/
theorem select_current_suggestions (s : AppState) :
    (s.select_current).1.suggestions = s.suggestions := by
  unfold AppState.select_current AppState.send_message AppState.backspace
    AppState.delete_word
  dsimp only
  simp only [apply_ite Prod.fst, apply_ite AppState.suggestions, ite_self]

/-- `_select_current` keeps `sugg_index` or resets it to 0. -/
theorem select_current_sugg_index (s : AppState) :
    (s.select_current).1.sugg_index = s.sugg_index ∨
    (s.select_current).1.sugg_index = 0 := by
  unfold AppState.select_current AppState.send_message AppState.backspace
    AppState.delete_word
  dsimp only
  simp only [apply_ite Prod.fst, apply_ite AppState.sugg_index]
  split_ifs <;> simp

/-- `_select_current` never touches the input processor. -/
theorem select_current_inp (s : AppState) :
    (s.select_current).1.inp = s.inp := by
  unfold AppState.select_current AppState.send_message AppState.backspace
    AppState.delete_word
  dsimp only
  simp only [apply_ite Prod.fst, apply_ite AppState.inp, ite_self]

/-- `_select_current` never touches the diagonal lock. -/
theorem select_current_lock (s : AppState) :
    (s.select_current).1.diagonal_fired = s.diagonal_fired := by
  unfold AppState.select_current AppState.send_message AppState.backspace
    AppState.delete_word
  dsimp only
  simp only [apply_ite Prod.fst, apply_ite AppState.diagonal_fired, ite_self]

/-- `reset_dwell` keeps the stored direction. -/
theorem reset_dwell_current (p : InputProcessor) (t : ℚ) :
    (p.reset_dwell t).current_dir = p.current_dir := rfl

/-- `_handle_center` never changes the suggestion list. -/
theorem handle_center_suggestions (s : AppState) (now : ℚ) :
    (s.handle_center now).1.suggestions = s.suggestions := by
  unfold AppState.handle_center
  dsimp only
  simp only [apply_ite Prod.fst, apply_ite AppState.suggestions,
    select_current_suggestions, ite_self]

/-- `_handle_center` keeps `sugg_index` or resets it to 0. -/
theorem handle_center_sugg_index (s : AppState) (now : ℚ) :
    (s.handle_center now).1.sugg_index = s.sugg_index ∨
    (s.handle_center now).1.sugg_index = 0 := by
  unfold AppState.handle_center
  dsimp only
  simp only [apply_ite Prod.fst, apply_ite AppState.sugg_index]
  rcases select_current_sugg_index s with h | h <;> rw [h] <;>
    split_ifs <;> simp

/-- `_handle_cardinal` never changes the suggestion list. -/
theorem handle_cardinal_suggestions (s : AppState) (d : Dir) (now : ℚ) :
    (s.handle_cardinal d now).suggestions = s.suggestions := by
  unfold AppState.handle_cardinal
  dsimp only
  simp only [apply_ite AppState.suggestions, ite_self]

/-- `_handle_cardinal` keeps `sugg_index` within the suggestion capacity:
the S scroll clamps to the current list length and N floors at 0. -/
theorem handle_cardinal_sugg_le (s : AppState) (d : Dir) (now : ℚ)
    (h1 : s.sugg_index ≤ 3) (h2 : s.suggestions.length ≤ 3) :
    (s.handle_cardinal d now).sugg_index ≤ 3 := by
  unfold AppState.handle_cardinal
  dsimp only
  simp only [apply_ite AppState.sugg_index]
  split_ifs <;> omega

/-- `_handle_diagonal` never changes the suggestion list. -/
theorem handle_diagonal_suggestions (s : AppState) (d : Dir) (now : ℚ) :
    (s.handle_diagonal d now).1.suggestions = s.suggestions := by
  unfold AppState.handle_diagonal AppState.flash AppState.accept_top_suggestion
    AppState.backspace AppState.delete_word
  dsimp only
  simp only [apply_ite Prod.fst, apply_ite AppState.suggestions, ite_self]

/-- `_handle_diagonal` keeps `sugg_index` or resets it to 0. -/
theorem handle_diagonal_sugg_index (s : AppState) (d : Dir) (now : ℚ) :
    (s.handle_diagonal d now).1.sugg_index = s.sugg_index ∨
    (s.handle_diagonal d now).1.sugg_index = 0 := by
  unfold AppState.handle_diagonal AppState.flash AppState.accept_top_suggestion
    AppState.backspace AppState.delete_word
  dsimp only
  simp only [apply_ite Prod.fst, apply_ite AppState.sugg_index]
  split_ifs <;> simp

/-- One tick preserves the capacity bounds on `sugg_index` and the
suggestion list. -/
theorem update_inv (s : AppState) (d : Dir) (t : ℚ)
    (h1 : s.sugg_index ≤ 3) (h2 : s.suggestions.length ≤ 3) :
    (s.update d t).1.sugg_index ≤ 3 ∧
    (s.update d t).1.suggestions.length ≤ 3 := by
  obtain ⟨i, fd, w, c, df, sg, lv, cx, cap, heq, hsg⟩ := preTick_shape s d t
  have hsg3 : sg.length ≤ 3 := by
    rcases hsg with h | h
    · rw [h]; exact h2
    · exact h
  simp only [AppState.update]
  rw [heq]
  split_ifs
  · constructor
    · rcases handle_center_sugg_index
        { s with inp := i, flash_direction := fd, was_off_center := w,
                 center_cooldown_until := c, diagonal_fired := df,
                 suggestions := sg, ngram_level := lv, ngram_context := cx,
                 captioner := cap } t with h | h <;> rw [h] <;>
        first | exact h1 | omega
    · rw [handle_center_suggestions]; exact hsg3
  · constructor
    · exact handle_cardinal_sugg_le _ d t h1 hsg3
    · rw [handle_cardinal_suggestions]; exact hsg3
  · constructor
    · rcases handle_diagonal_sugg_index
        { s with inp := i, flash_direction := fd, was_off_center := w,
                 center_cooldown_until := c, diagonal_fired := df,
                 suggestions := sg, ngram_level := lv, ngram_context := cx,
                 captioner := cap } d t with h | h <;> rw [h] <;>
        first | exact h1 | omega
    · rw [handle_diagonal_suggestions]; exact hsg3
  · exact ⟨h1, hsg3⟩

/-- The capacity bounds are preserved along any run of ticks. -/
theorem run_inv (steps : List (Dir × ℚ)) :
    ∀ (s : AppState), s.sugg_index ≤ 3 → s.suggestions.length ≤ 3 →
      (s.run steps).sugg_index ≤ 3 ∧ (s.run steps).suggestions.length ≤ 3 := by
  induction steps with
  | nil => exact fun s hA hB => ⟨hA, hB⟩
  | cons p rest ih =>
    intro s hA hB
    obtain ⟨d, t⟩ := p
    obtain ⟨g1, g2⟩ := update_inv s d t hA hB
    exact ih _ g1 g2

/-- Claim C6 (amended): in every reachable state, `sugg_index` lies in
[0, 3] — 3 being `max_results`, the suggestion-list capacity — and the
suggestion list itself has at most 3 entries.  (The unamended invariant
`sugg_index ≤ len(suggestions)` fails on reachable states:
`sugg_index_exceeds_count_cx` — suggestion recomputation after a
prefix-changing diagonal action shrinks the list without re-clamping
`sugg_index`.  The lower bound 0 is inherent: `sugg_index` is
non-negative by construction.) -/
theorem sugg_index_bounded (s : AppState) (h : Reach s) :
    s.sugg_index ≤ 3 ∧ s.suggestions.length ≤ 3 := by
  obtain ⟨pt, t0, steps, rfl⟩ := h
  exact run_inv steps (AppState.init pt t0) (by norm_num [AppState.init])
    (by norm_num [AppState.init])

/-- Witness for `sugg_index_bounded` at the freshly constructed state. -/
theorem sugg_index_bounded_witness :
    (AppState.init ptDflt 0).sugg_index ≤ 3 ∧
    (AppState.init ptDflt 0).suggestions.length ≤ 3 :=
  sugg_index_bounded (AppState.init ptDflt 0) ⟨ptDflt, 0, [], rfl⟩


/-- The cooldown block is a pure `was_off_center` flag set when the tick's
direction is off-center. -/
theorem phaseCooldown_offCenter (s : AppState) (d : Dir) (now : ℚ)
    (hd : d ≠ .CENTER) :
    s.phaseCooldown d now = { s with was_off_center := true } := by
  unfold AppState.phaseCooldown
  rw [if_pos hd]

/-- The value the lock block leaves in `_diagonal_fired`. -/
theorem phaseLock_val (s : AppState) (d : Dir) :
    (s.phaseLock d).diagonal_fired =
      if some d ≠ s.diagonal_fired then none else s.diagonal_fired := by
  unfold AppState.phaseLock
  split_ifs <;> rfl

/-- The cooldown block never changes the stored direction. -/
theorem phaseCooldown_current (s : AppState) (d : Dir) (now : ℚ) :
    (s.phaseCooldown d now).inp.current_dir = s.inp.current_dir := by
  unfold AppState.phaseCooldown
  simp only [apply_ite AppState.inp, apply_ite InputProcessor.current_dir,
    reset_dwell_current, ite_self]

/-- For an off-center tick, the pre-dispatch part performs exactly the
classifier update and the lock-clear comparison. -/
theorem preTick_parts (s : AppState) (d : Dir) (now : ℚ) (hd : d ≠ .CENTER) :
    (s.preTick d now).inp = s.inp.update d now ∧
    (s.preTick d now).diagonal_fired =
      (if some d ≠ s.diagonal_fired then none else s.diagonal_fired) := by
  obtain ⟨fd, h2⟩ := phaseFlash_shape (s.phaseInput d now) now
  have h3 := phaseCooldown_offCenter ((s.phaseInput d now).phaseFlash now) d
    now hd
  obtain ⟨df, h4⟩ := phaseLock_shape
    (((s.phaseInput d now).phaseFlash now).phaseCooldown d now) d
  have hdf := phaseLock_val
    (((s.phaseInput d now).phaseFlash now).phaseCooldown d now) d
  rw [h4] at hdf
  rw [h3, h2] at hdf
  obtain ⟨sg, lv, cx, h5, _⟩ := phaseSuggest_shape
    ((((s.phaseInput d now).phaseFlash now).phaseCooldown d now).phaseLock d)
  obtain ⟨cap, h6⟩ := phaseCaption_shape
    (((((s.phaseInput d now).phaseFlash now).phaseCooldown d
      now).phaseLock d).phaseSuggest)
  unfold AppState.preTick
  rw [h6, h5, h4, h3, h2]
  exact ⟨rfl, hdf⟩

/-- After the pre-dispatch part, the stored direction is the tick's. -/
theorem preTick_current (s : AppState) (d : Dir) (now : ℚ) :
    (s.preTick d now).inp.current_dir = d := by
  obtain ⟨cap, h6⟩ := phaseCaption_shape
    (((((s.phaseInput d now).phaseFlash now).phaseCooldown d
      now).phaseLock d).phaseSuggest)
  obtain ⟨sg, lv, cx, h5, _⟩ := phaseSuggest_shape
    ((((s.phaseInput d now).phaseFlash now).phaseCooldown d now).phaseLock d)
  obtain ⟨df, h4⟩ := phaseLock_shape
    (((s.phaseInput d now).phaseFlash now).phaseCooldown d now) d
  obtain ⟨fd, h2⟩ := phaseFlash_shape (s.phaseInput d now) now
  unfold AppState.preTick
  rw [h6, h5, h4]
  dsimp only
  rw [phaseCooldown_current, h2]
  dsimp only
  exact up_current _ _ _

/-- After the pre-dispatch part, the lock is clear or armed for the
tick direction. -/
theorem preTick_lock_cases (s : AppState) (d : Dir) (now : ℚ) :
    (s.preTick d now).diagonal_fired = none ∨
    (s.preTick d now).diagonal_fired = some d := by
  obtain ⟨cap, h6⟩ := phaseCaption_shape
    (((((s.phaseInput d now).phaseFlash now).phaseCooldown d
      now).phaseLock d).phaseSuggest)
  obtain ⟨sg, lv, cx, h5, _⟩ := phaseSuggest_shape
    ((((s.phaseInput d now).phaseFlash now).phaseCooldown d now).phaseLock d)
  unfold AppState.preTick
  rw [h6, h5]
  dsimp only
  rw [phaseLock_val]
  split_ifs with h
  · exact Or.inl rfl
  · rw [not_ne_iff] at h
    exact Or.inr h.symm

/-- Dispatch: a CENTER tick runs `_handle_center` on the pre-dispatch
state. -/
theorem update_center (s : AppState) (t : ℚ) :
    s.update .CENTER t = (s.preTick .CENTER t).handle_center t := rfl

/-- Dispatch: a cardinal tick runs `_handle_cardinal` on the pre-dispatch
state. -/
theorem update_cardinal (s : AppState) (t : ℚ) (d : Dir) (hd : d ∈ CARDINALS) :
    s.update d t = ((s.preTick d t).handle_cardinal d t, TickEv.quiet) := by
  simp only [CARDINALS] at hd
  fin_cases hd <;> rfl

/-- Dispatch: a diagonal tick runs `_handle_diagonal` on the pre-dispatch
state. -/
theorem update_diagonal (s : AppState) (t : ℚ) (d : Dir) (hd : d ∈ DIAGONALS) :
    s.update d t = (s.preTick d t).handle_diagonal d t := by
  simp only [DIAGONALS] at hd
  fin_cases hd <;> rfl

/-- `dwell_percent` for a held diagonal is the clamped dwell ratio. -/
theorem dwell_percent_diag (s : AppState) (now : ℚ)
    (h : s.inp.direction ∈ DIAGONALS) :
    s.dwell_percent now = min 1 (s.inp.dwell_seconds / 2) := by
  have hc : s.inp.direction ≠ .CENTER := by
    intro h0
    rw [h0] at h
    simp [DIAGONALS] at h
  unfold AppState.dwell_percent
  dsimp only
  rw [if_neg hc, if_pos h]
  rfl

/-- `_handle_diagonal` is a no-op while the lock is armed. -/
theorem handle_diagonal_locked (s : AppState) (d : Dir) (now : ℚ)
    (h : s.diagonal_fired.isSome = true) :
    s.handle_diagonal d now = (s, TickEv.quiet) := by
  unfold AppState.handle_diagonal
  rw [if_pos h]

/-- `_handle_diagonal` is a no-op below the dwell threshold. -/
theorem handle_diagonal_cold (s : AppState) (d : Dir) (now : ℚ)
    (h1 : ¬ s.diagonal_fired.isSome = true) (h2 : s.dwell_percent now < 1) :
    s.handle_diagonal d now = (s, TickEv.quiet) := by
  unfold AppState.handle_diagonal
  rw [if_neg h1, if_pos h2]

/-- When unlocked and past threshold, `_handle_diagonal` fires: the event
carries the diagonal, the lock arms for it, and the stored direction is
untouched by the dispatched action. -/
theorem handle_diagonal_fire (s : AppState) (d : Dir) (now : ℚ)
    (h1 : ¬ s.diagonal_fired.isSome = true) (h2 : ¬ s.dwell_percent now < 1) :
    (s.handle_diagonal d now).2.fired = some d ∧
    (s.handle_diagonal d now).1.diagonal_fired = some d ∧
    (s.handle_diagonal d now).1.inp.current_dir = s.inp.current_dir := by
  unfold AppState.handle_diagonal AppState.flash AppState.accept_top_suggestion
    AppState.backspace AppState.delete_word
  rw [if_neg h1, if_neg h2]
  dsimp only
  refine ⟨?_, ?_, ?_⟩
  · simp only [apply_ite Prod.snd, apply_ite TickEv.fired, ite_self]
  · simp only [apply_ite Prod.fst, apply_ite AppState.diagonal_fired, ite_self]
  · simp only [apply_ite Prod.fst, apply_ite AppState.inp,
      apply_ite InputProcessor.current_dir, reset_dwell_current, ite_self]

/-- `_handle_diagonal` never changes the stored direction. -/
theorem handle_diagonal_current (s : AppState) (d : Dir) (now : ℚ) :
    (s.handle_diagonal d now).1.inp.current_dir = s.inp.current_dir := by
  unfold AppState.handle_diagonal AppState.flash AppState.accept_top_suggestion
    AppState.backspace AppState.delete_word
  dsimp only
  simp only [apply_ite Prod.fst, apply_ite AppState.inp,
    apply_ite InputProcessor.current_dir, reset_dwell_current, ite_self]

/-- `_handle_diagonal` keeps the lock or arms it for the tick direction. -/
theorem handle_diagonal_lock_cases (s : AppState) (d : Dir) (now : ℚ) :
    (s.handle_diagonal d now).1.diagonal_fired = s.diagonal_fired ∨
    (s.handle_diagonal d now).1.diagonal_fired = some d := by
  unfold AppState.handle_diagonal AppState.flash AppState.accept_top_suggestion
    AppState.backspace AppState.delete_word
  dsimp only
  simp only [apply_ite Prod.fst, apply_ite AppState.diagonal_fired]
  split_ifs <;> simp

/-- `_handle_center` never changes the stored direction. -/
theorem handle_center_current (s : AppState) (now : ℚ) :
    (s.handle_center now).1.inp.current_dir = s.inp.current_dir := by
  unfold AppState.handle_center
  dsimp only
  simp only [apply_ite Prod.fst, apply_ite AppState.inp,
    apply_ite InputProcessor.current_dir, reset_dwell_current,
    select_current_inp, ite_self]

/-- `_handle_center` never changes the diagonal lock. -/
theorem handle_center_lock (s : AppState) (now : ℚ) :
    (s.handle_center now).1.diagonal_fired = s.diagonal_fired := by
  unfold AppState.handle_center
  dsimp only
  simp only [apply_ite Prod.fst, apply_ite AppState.diagonal_fired,
    select_current_lock, ite_self]

/-- `_handle_cardinal` never touches the input processor. -/
theorem handle_cardinal_inp (s : AppState) (d : Dir) (now : ℚ) :
    (s.handle_cardinal d now).inp = s.inp := by
  unfold AppState.handle_cardinal
  dsimp only
  simp only [apply_ite AppState.inp, ite_self]

/-- `_handle_cardinal` never changes the diagonal lock. -/
theorem handle_cardinal_lock (s : AppState) (d : Dir) (now : ℚ) :
    (s.handle_cardinal d now).diagonal_fired = s.diagonal_fired := by
  unfold AppState.handle_cardinal
  dsimp only
  simp only [apply_ite AppState.diagonal_fired, ite_self]

/-- After any tick, the stored direction is the tick's direction. -/
theorem update_current (s : AppState) (d : Dir) (t : ℚ) :
    (s.update d t).1.inp.current_dir = d := by
  simp only [AppState.update]
  split_ifs with hC hK hD
  · subst hC
    rw [handle_center_current, preTick_current]
  · dsimp only
    rw [handle_cardinal_inp, preTick_current]
  · rw [handle_diagonal_current, preTick_current]
  · dsimp only
    exact preTick_current s d t

/-- After any tick, the lock is clear or armed for the tick direction. -/
theorem update_lock_cases (s : AppState) (d : Dir) (t : ℚ) :
    (s.update d t).1.diagonal_fired = none ∨
    (s.update d t).1.diagonal_fired = some d := by
  simp only [AppState.update]
  split_ifs with hC hK hD
  · subst hC
    rw [handle_center_lock]
    exact preTick_lock_cases s _ t
  · dsimp only
    rw [handle_cardinal_lock]
    exact preTick_lock_cases s d t
  · rcases handle_diagonal_lock_cases (s.preTick d t) d t with h | h
    · rw [h]
      exact preTick_lock_cases s d t
    · exact Or.inr h
  · dsimp only
    exact preTick_lock_cases s d t

/-- After any tick, an armed lock names the currently stored direction. -/
theorem update_lockOk (s : AppState) (d : Dir) (t : ℚ) (d' : Dir)
    (h : (s.update d t).1.diagonal_fired = some d') :
    (s.update d t).1.inp.current_dir = d' := by
  rcases update_lock_cases s d t with h0 | h0
  · rw [h0] at h
    cases h
  · rw [h0] at h
    injection h with h
    subst h
    exact update_current s d t

/-- In every reachable state, an armed ActionLock is armed for the
currently stored direction (the spec's "exactly one ActionLock ... for the
currently-held diagonal"). -/
theorem reach_lockOk (s : AppState) (h : Reach s) :
    ∀ d', s.diagonal_fired = some d' → s.inp.current_dir = d' := by
  obtain ⟨pt, t0, steps, rfl⟩ := h
  have main : ∀ (steps : List (Dir × ℚ)) (s : AppState),
      (∀ d', s.diagonal_fired = some d' → s.inp.current_dir = d') →
      ∀ d', (s.run steps).diagonal_fired = some d' →
        (s.run steps).inp.current_dir = d' := by
    intro steps
    induction steps with
    | nil => exact fun s h => h
    | cons p rest ih =>
      intro s hbase
      obtain ⟨d, t⟩ := p
      exact ih _ (fun d' h' => update_lockOk s d t d' h')
  refine main steps (AppState.init pt t0) ?_
  intro d' h'
  simp [AppState.init] at h'

/-- A locked tick with the same diagonal: nothing fires and the lock
stays armed. -/
theorem step_locked (s : AppState) (d : Dir) (t : ℚ) (hd : d ∈ DIAGONALS)
    (hs : s.diagonal_fired = some d) :
    (s.update d t).2.fired = none ∧
    (s.update d t).1.diagonal_fired = some d := by
  have hdc : d ≠ .CENTER := by
    simp only [DIAGONALS] at hd
    fin_cases hd <;> decide
  obtain ⟨hip, hlkv⟩ := preTick_parts s d t hdc
  have hR : (s.preTick d t).diagonal_fired = some d := by
    rw [hlkv, hs]
    simp
  rw [update_diagonal s t d hd,
    handle_diagonal_locked _ d t (by rw [hR]; rfl)]
  exact ⟨rfl, hR⟩

/-- An armed tick below the 2 s threshold: nothing fires, the dwell episode
(start `t0`) continues, and the lock stays clear. -/
theorem step_armed_cold (s : AppState) (d : Dir) (t0 t : ℚ)
    (hd : d ∈ DIAGONALS) (hcur : s.inp.current_dir = d)
    (hst : s.inp.dwell_start = t0) (hlk : s.diagonal_fired = none)
    (ht : t - t0 < 2) :
    (s.update d t).2.fired = none ∧
    (s.update d t).1.inp.current_dir = d ∧
    (s.update d t).1.inp.dwell_start = t0 ∧
    (s.update d t).1.diagonal_fired = none := by
  have hdc : d ≠ .CENTER := by
    simp only [DIAGONALS] at hd
    fin_cases hd <;> decide
  obtain ⟨hip, hlkv⟩ := preTick_parts s d t hdc
  have hRinp : (s.preTick d t).inp =
      { s.inp with direction := d, dwell_seconds := t - s.inp.dwell_start } := by
    rw [hip, up_same _ _ _ hcur.symm]
  have hRlk : (s.preTick d t).diagonal_fired = none := by
    rw [hlkv, hlk]
    simp
  have hpc : (s.preTick d t).dwell_percent t < 1 := by
    rw [dwell_percent_diag _ _ (by rw [hRinp]; exact hd)]
    rw [hRinp]
    dsimp only
    rw [hst]
    calc min 1 ((t - t0) / 2) ≤ (t - t0) / 2 := min_le_right _ _
      _ < 1 := by linarith
  rw [update_diagonal s t d hd,
    handle_diagonal_cold _ d t (by simp [hRlk]) hpc]
  refine ⟨rfl, ?_, ?_, hRlk⟩
  · rw [hRinp]
    exact hcur
  · rw [hRinp]
    exact hst

/-- An armed tick at or past the 2 s threshold: the action fires and the
lock arms for the held diagonal. -/
theorem step_armed_fire (s : AppState) (d : Dir) (t0 t : ℚ)
    (hd : d ∈ DIAGONALS) (hcur : s.inp.current_dir = d)
    (hst : s.inp.dwell_start = t0) (hlk : s.diagonal_fired = none)
    (ht : t0 + 2 ≤ t) :
    (s.update d t).2.fired = some d ∧
    (s.update d t).1.diagonal_fired = some d := by
  have hdc : d ≠ .CENTER := by
    simp only [DIAGONALS] at hd
    fin_cases hd <;> decide
  obtain ⟨hip, hlkv⟩ := preTick_parts s d t hdc
  have hRinp : (s.preTick d t).inp =
      { s.inp with direction := d, dwell_seconds := t - s.inp.dwell_start } := by
    rw [hip, up_same _ _ _ hcur.symm]
  have hRlk : (s.preTick d t).diagonal_fired = none := by
    rw [hlkv, hlk]
    simp
  have hpc : ¬ (s.preTick d t).dwell_percent t < 1 := by
    rw [dwell_percent_diag _ _ (by rw [hRinp]; exact hd)]
    rw [hRinp]
    dsimp only
    rw [hst]
    exact not_lt.mpr (le_min le_rfl (by linarith))
  obtain ⟨g1, g2, g3⟩ :=
    handle_diagonal_fire (s.preTick d t) d t (by simp [hRlk]) hpc
  rw [update_diagonal s t d hd]
  exact ⟨g1, g2⟩

/-- Once the lock is armed for the held diagonal, no later tick of the
same run fires. -/
theorem firesConst_locked (d : Dir) (hd : d ∈ DIAGONALS) :
    ∀ (ts : List ℚ) (s : AppState), s.diagonal_fired = some d →
      s.firesConst d ts = 0 := by
  intro ts
  induction ts with
  | nil => intro s _; rfl
  | cons t ts ih =>
    intro s hs
    obtain ⟨hev, hlk⟩ := step_locked s d t hd hs
    simp only [AppState.firesConst]
    rw [hev, ih _ hlk]
    simp

/-- From an armed episode with dwell start `t0`, a run that reaches
`t0 + 2` fires exactly once. -/
theorem firesConst_armed (d : Dir) (hd : d ∈ DIAGONALS) (t0 : ℚ) :
    ∀ (ts : List ℚ) (s : AppState),
      s.inp.current_dir = d → s.inp.dwell_start = t0 →
      s.diagonal_fired = none → (∃ t ∈ ts, t0 + 2 ≤ t) →
      s.firesConst d ts = 1 := by
  intro ts
  induction ts with
  | nil =>
    rintro s _ _ _ ⟨t, ht, _⟩
    simp at ht
  | cons t ts ih =>
    rintro s hcur hst hlk hex
    by_cases hth : t0 + 2 ≤ t
    · obtain ⟨hev, hlk2⟩ := step_armed_fire s d t0 t hd hcur hst hlk hth
      simp only [AppState.firesConst]
      rw [hev, firesConst_locked d hd ts _ hlk2]
      rfl
    · obtain ⟨hev, hc2, hs2, hl2⟩ :=
        step_armed_cold s d t0 t hd hcur hst hlk (by linarith [not_le.mp hth])
      have hex2 : ∃ t' ∈ ts, t0 + 2 ≤ t' := by
        obtain ⟨t', ht', hle⟩ := hex
        rcases List.mem_cons.mp ht' with rfl | hmem
        · exact absurd hle hth
        · exact ⟨t', hmem, hle⟩
      simp only [AppState.firesConst]
      rw [hev, ih _ hc2 hs2 hl2 hex2]
      rfl

/-- The first tick of a diagonal run (direction changes to `d`): nothing
fires yet, the dwell episode starts at `t0`, and the lock clears. -/
theorem first_tick (s : AppState) (d : Dir) (t0 : ℚ) (hd : d ∈ DIAGONALS)
    (hcur : s.inp.current_dir ≠ d) (hlk : s.diagonal_fired ≠ some d) :
    (s.update d t0).2.fired = none ∧
    (s.update d t0).1.inp.current_dir = d ∧
    (s.update d t0).1.inp.dwell_start = t0 ∧
    (s.update d t0).1.diagonal_fired = none := by
  have hdc : d ≠ .CENTER := by
    simp only [DIAGONALS] at hd
    fin_cases hd <;> decide
  obtain ⟨hip, hlkv⟩ := preTick_parts s d t0 hdc
  have hRinp : (s.preTick d t0).inp =
      { direction := d, current_dir := d, dwell_start := t0
        dwell_seconds := 0 } := by
    rw [hip, up_diff _ _ _ (Ne.symm hcur)]
  have hcond : some d ≠ s.diagonal_fired := fun h => hlk h.symm
  have hRlk : (s.preTick d t0).diagonal_fired = none := by
    rw [hlkv, if_pos hcond]
  have hpc : (s.preTick d t0).dwell_percent t0 < 1 := by
    rw [dwell_percent_diag _ _ (by rw [hRinp]; exact hd)]
    rw [hRinp]
    dsimp only
    norm_num
  rw [update_diagonal s t0 d hd,
    handle_diagonal_cold _ d t0 (by simp [hRlk]) hpc]
  refine ⟨rfl, ?_, ?_, hRlk⟩
  · rw [hRinp]
  · rw [hRinp]

/-- Claim C4: from any reachable state, for every run of consecutive ticks
whose classified direction stays equal to a diagonal `d` (entered at time
`t0`, i.e. the stored direction differed before the run) with
non-decreasing tick times, if the run lasts past the 2.0 s threshold then
the diagonal action fires exactly once during the run; and the ActionLock,
once armed for `d`, is never cleared by a tick whose classified direction
is still `d` — it is cleared only when the direction changes away. -/
theorem diagonal_fires_once (s0 : AppState) (d : Dir) (t0 : ℚ) (ts : List ℚ)
    (hreach : Reach s0) (hd : d ∈ DIAGONALS)
    (hdir : s0.inp.current_dir ≠ d)
    (_hmono : List.Chain (· ≤ ·) t0 ts)
    (hlong : ∃ t ∈ ts, t0 + 2 ≤ t) :
    s0.firesConst d (t0 :: ts) = 1 ∧
    ∀ (s : AppState) (t : ℚ), s.diagonal_fired = some d →
      ((s.update d t).1).diagonal_fired = some d := by
  constructor
  · have hlk0 : s0.diagonal_fired ≠ some d :=
      fun h => hdir (reach_lockOk s0 hreach d h)
    obtain ⟨hev, hc, hs, hl⟩ := first_tick s0 d t0 hd hdir hlk0
    simp only [AppState.firesConst]
    rw [hev, firesConst_armed d hd t0 ts _ hc hs hl hlong]
    rfl
  · intro s t hs
    exact (step_locked s d t hd hs).2

/-- Witness for `diagonal_fires_once`: a fresh state held on NE at times
1, 2, 3.5 (past the 2 s threshold) fires exactly once, and an armed NE
lock survives another NE tick. -/
theorem diagonal_fires_once_witness :
    (AppState.init ptDflt 0).firesConst .NE [1, 2, 7/2] = 1 ∧
    ((sLockedNE.update .NE 5).1).diagonal_fired = some .NE := by
  constructor
  · exact (diagonal_fires_once (AppState.init ptDflt 0) .NE 1 [2, 7/2]
      ⟨ptDflt, 0, [], rfl⟩ (by decide) (by with_unfolding_all decide)
      (by norm_num [List.chain_cons]) (by with_unfolding_all decide)).1
  · exact (diagonal_fires_once (AppState.init ptDflt 0) .NE 1 [2, 7/2]
      ⟨ptDflt, 0, [], rfl⟩ (by decide) (by with_unfolding_all decide)
      (by norm_num [List.chain_cons]) (by with_unfolding_all decide)).2
      sLockedNE 5 rfl

end HackED
